import Mathlib

/-!
Shallow embedding of the conversation/session subsystem of the
`tiensinh2/chatbot_SOA` repository.

Embedded code:
* `src/services/redis_service.py` — `RedisService`: per-user session records
  (key `session:{user_id}`), conversation history lists (`history:{user_id}`)
  and per-user message counters (`stats:messages:{user_id}`) held in Redis,
  with lazy (on-access) and periodic TTL cleanup.
* `src/main.py` — `Chatbot`: keyword extraction and the per-turn product
  search that `process_message` issues.
* `src/config.py` — the configuration values read by the above.

Modelling conventions:
* Time is `Nat` seconds.  The ISO-8601 timestamps the Python code stores and
  re-parses (`datetime.now().isoformat()` / `datetime.fromisoformat`) are
  modelled by their numeric value; the serialise/parse round trip is the
  identity.  Python's `datetime` subtraction can be negative where `Nat`
  subtraction truncates to `0`; both make the `> SESSION_TTL` comparison
  false, so the embedded expiry checks agree with the source.
* Redis is modelled as three association lists (sessions, histories,
  counters).  Every entry carries the absolute physical expiry time that
  `SETEX`/`EXPIRE` installed; per Redis semantics a key is visible to
  `GET`/`EXISTS`/`KEYS`/`LLEN`/`LRANGE` exactly while `now < expiry`.
* JSON session payloads are modelled as `Dict`, an ordered key/value list,
  mirroring the Python dicts that `json.dumps`/`json.loads` round-trip.
* Exceptions cannot occur in the pure model; each `try/except` handler in
  the source that logs and returns a default value is represented by that
  defaulted return value.
-/

namespace ChatbotSOA

/-- JSON values as they occur in stored session records. -/
inductive JVal where
  | s (v : String)
  | n (v : Nat)
  | b (v : Bool)
  | ls (v : List String)
  deriving Repr, DecidableEq

/-- A JSON object (Python dict) as an ordered association list. -/
abbrev Dict := List (String × JVal)

/-- First-match association-list lookup (dict subscript / Redis `GET`). -/
def alookup {α : Type} (k : String) : List (String × α) → Option α
  | [] => none
  | (k', v) :: t => if k' = k then some v else alookup k t

/-- Remove every entry stored under key `k` (Redis `DEL`). -/
def aerase {α : Type} (k : String) : List (String × α) → List (String × α)
  | [] => []
  | (k', v) :: t => if k' = k then aerase k t else (k', v) :: aerase k t

/-- Overwrite key `k` with value `v` (Redis `SET`/`SETEX`; key order in the
store is irrelevant to every operation modelled here). -/
def aset {α : Type} (k : String) (v : α) (l : List (String × α)) : List (String × α) :=
  (k, v) :: aerase k l

/-- Dict field read (`session['last_active']`, `session.get(...)`). -/
def Dict.get (d : Dict) (k : String) : Option JVal :=
  alookup k d

/-- Dict field write (`session['last_active'] = ...`): replaces the value at
the first occurrence of the key, otherwise appends the new binding. -/
def Dict.set : Dict → String → JVal → Dict
  | [], k, v => [(k, v)]
  | (k', v') :: t, k, v => if k' = k then (k, v) :: t else (k', v') :: Dict.set t k v

/-- One stored conversation message, as built by `RedisService.add_message`:
`{'role': role, 'content': content, 'timestamp': ..., 'expires_in': SESSION_TTL}`. -/
structure HistMsg where
  role : String
  content : String
  timestamp : Nat
  expires_in : Nat
  deriving Repr, DecidableEq

/-- A stored session record together with its physical expiry time. -/
structure SessEntry where
  record : Dict
  expiry : Nat
  deriving Repr, DecidableEq

/-- A stored conversation history list together with its physical expiry. -/
structure HistEntry where
  msgs : List HistMsg
  expiry : Nat
  deriving Repr, DecidableEq

/-- A stored per-user message counter together with its physical expiry. -/
structure StatEntry where
  count : Nat
  expiry : Nat
  deriving Repr, DecidableEq

/-- The Redis contents used by the service: the `session:*`, `history:*` and
`stats:messages:*` key families, keyed by user id. -/
structure Store where
  sessions : List (String × SessEntry)
  histories : List (String × HistEntry)
  stats : List (String × StatEntry)
  deriving Repr, DecidableEq

/-- Redis `GET session:{uid}` at time `now`: visible only before expiry. -/
def Store.getSess (s : Store) (now : Nat) (uid : String) : Option Dict :=
  match alookup uid s.sessions with
  | some e => if now < e.expiry then some e.record else none
  | none => none

/-- Redis read of `history:{uid}` at time `now` (`LLEN`/`LRANGE` source). -/
def Store.getHist (s : Store) (now : Nat) (uid : String) : Option (List HistMsg) :=
  match alookup uid s.histories with
  | some e => if now < e.expiry then some e.msgs else none
  | none => none

/-- Redis `GET stats:messages:{uid}` at time `now`. -/
def Store.getStat (s : Store) (now : Nat) (uid : String) : Option Nat :=
  match alookup uid s.stats with
  | some e => if now < e.expiry then some e.count else none
  | none => none

/-- Redis `SETEX session:{uid}` with the given record and absolute expiry. -/
def Store.setSess (s : Store) (uid : String) (record : Dict) (expiry : Nat) : Store :=
  { s with sessions := aset uid ⟨record, expiry⟩ s.sessions }

/-- Write `history:{uid}` (the `RPUSH` result) and set its expiry
(`EXPIRE history:{uid} SESSION_TTL`). -/
def Store.setHist (s : Store) (uid : String) (msgs : List HistMsg) (expiry : Nat) : Store :=
  { s with histories := aset uid ⟨msgs, expiry⟩ s.histories }

/-- Write `stats:messages:{uid}` (the `INCR` result) and set its expiry. -/
def Store.setStat (s : Store) (uid : String) (count : Nat) (expiry : Nat) : Store :=
  { s with stats := aset uid ⟨count, expiry⟩ s.stats }

/-- Redis `DEL history:{uid}`. -/
def Store.delHist (s : Store) (uid : String) : Store :=
  { s with histories := aerase uid s.histories }

/-- Redis `KEYS "session:*"` at time `now`: the user ids of the physically
live session keys. -/
def alive_session_keys (s : Store) (now : Nat) : List String :=
  (s.sessions.filter (fun p => decide (now < p.2.expiry))).map (fun p => p.1)

/-- The configuration values from `src/config.py` that the service reads. -/
structure Config where
  SESSION_TTL : Nat
  CLEANUP_INTERVAL_MINUTES : Nat
  MAX_CHAT_HISTORY : Nat
  deriving Repr, DecidableEq

/-- The mutable state of a `RedisService` instance: the backing store, the
`is_connected` flag and `last_cleanup_time`. -/
structure RState where
  store : Store
  is_connected : Bool
  last_cleanup_time : Nat
  deriving Repr, DecidableEq

/-- `RedisService._delete_user_data`: deletes `session:{uid}`,
`history:{uid}` and `stats:messages:{uid}`.  The source also deletes
`temp:{uid}:*` keys, but no code in the repository ever creates such keys,
so they are not modelled. -/
def delete_user_data (uid : String) (s : Store) : Store :=
  { sessions := aerase uid s.sessions
    histories := aerase uid s.histories
    stats := aerase uid s.stats }

/-- The characters of a user id up to (excluding) its first colon. -/
def take_to_colon : List Char → List Char
  | [] => []
  | c :: rest => if c = ':' then [] else c :: take_to_colon rest

/-- The user id that `_cleanup_old_sessions` reconstructs from a session
key with `user_id = session_key.split(":")[1]`: for
`session_key = "session:" + uid` this is the portion of `uid` before its
first colon — the whole id only when the id contains no colon. -/
def swept_user_id (uid : String) : String :=
  String.mk (take_to_colon uid.data)

/-- The deletions one sweep iteration performs for an expired session:
`DEL` of the full session key, then `DEL history:{user_id}` and
`DEL stats:messages:{user_id}` where `user_id` is the
`session_key.split(":")[1]` reconstruction (`swept_user_id`).  For a user
id containing a colon these are NOT the expired user's own history and
stats keys. -/
def sweep_delete (uid : String) (s : Store) : Store :=
  { sessions := aerase uid s.sessions
    histories := aerase (swept_user_id uid) s.histories
    stats := aerase (swept_user_id uid) s.stats }

/-- One iteration of the loop in `RedisService._cleanup_old_sessions`:
reads the session record at `uid`; when a numeric `last_active` field is
present and `now - last_active > SESSION_TTL`, deletes the session key
and the history and stats keys of the reconstructed
`session_key.split(":")[1]` user id (see `sweep_delete`) and counts the
deletion, otherwise leaves the store unchanged (missing key, missing
field, or unparseable timestamp all `continue`). -/
def cleanup_step (cfg : Config) (now : Nat) (acc : Store × Nat) (uid : String) : Store × Nat :=
  match acc.1.getSess now uid with
  | none => acc
  | some sess =>
    match sess.get "last_active" with
    | some (JVal.n la) =>
      if cfg.SESSION_TTL < now - la then (sweep_delete uid acc.1, acc.2 + 1) else acc
    | some (JVal.s _) => acc
    | some (JVal.b _) => acc
    | some (JVal.ls _) => acc
    | none => acc

/-- `RedisService._cleanup_old_sessions`: enumerates the live `session:*`
keys and applies `cleanup_step` to each, returning the new store and the
number of sessions deleted. -/
def cleanup_old_sessions (cfg : Config) (now : Nat) (s : Store) : Store × Nat :=
  (alive_session_keys s now).foldl (cleanup_step cfg now) (s, 0)

/-- `RedisService._check_and_cleanup`: when at least
`CLEANUP_INTERVAL_MINUTES * 60` seconds passed since `last_cleanup_time`,
runs `_cleanup_old_sessions` (a no-op on the store when not connected, as
the source's early `return 0`) and records the cleanup time. -/
def check_and_cleanup (cfg : Config) (now : Nat) (r : RState) : RState :=
  if cfg.CLEANUP_INTERVAL_MINUTES * 60 ≤ now - r.last_cleanup_time then
    if r.is_connected then
      { r with store := (cleanup_old_sessions cfg now r.store).1, last_cleanup_time := now }
    else
      { r with last_cleanup_time := now }
  else r

/-- `RedisService.get_session` after its `_check_and_cleanup` call: returns
`None` when disconnected; on a physically present record, reaps all user
data and returns `None` if `now - last_active > SESSION_TTL`, otherwise
refreshes `last_active` to `now`, rewrites the record with a fresh full
TTL (`SETEX key SESSION_TTL`) and returns it.  A present but unparseable
`last_active` raises in the source and is absorbed to `None` by the
`except` handler; a record without the field skips the expiry check. -/
def get_session_after_cleanup (cfg : Config) (now : Nat) (uid : String) (r : RState) :
    RState × Option Dict :=
  if r.is_connected then
    match r.store.getSess now uid with
    | none => (r, none)
    | some sess =>
      match sess.get "last_active" with
      | some (JVal.n la) =>
        if cfg.SESSION_TTL < now - la then
          ({ r with store := delete_user_data uid r.store }, none)
        else
          let sess2 := sess.set "last_active" (JVal.n now)
          let st := r.store.setSess uid sess2 (now + cfg.SESSION_TTL)
          ({ r with store := st }, some sess2)
      | some (JVal.s _) => (r, none)
      | some (JVal.b _) => (r, none)
      | some (JVal.ls _) => (r, none)
      | none =>
        let sess2 := sess.set "last_active" (JVal.n now)
        let st := r.store.setSess uid sess2 (now + cfg.SESSION_TTL)
        ({ r with store := st }, some sess2)
  else (r, none)

/-- `RedisService.get_session`. -/
def get_session (cfg : Config) (now : Nat) (uid : String) (r : RState) : RState × Option Dict :=
  get_session_after_cleanup cfg now uid (check_and_cleanup cfg now r)

/-- The fresh session dict written by `RedisService.create_session`.  Note
that it contains no `carried_products` key. -/
def fresh_session (cfg : Config) (uid : String) (now : Nat) : Dict :=
  [("user_id", JVal.s uid),
   ("created_at", JVal.n now),
   ("last_active", JVal.n now),
   ("message_count", JVal.n 0),
   ("is_first_chat", JVal.b true),
   ("expires_at", JVal.n (now + cfg.SESSION_TTL))]

/-- `RedisService._create_fallback_session`: the in-memory session dict
returned when Redis is unavailable; never written to the store. -/
def create_fallback_session (uid : String) (now : Nat) : Dict :=
  [("user_id", JVal.s uid),
   ("created_at", JVal.n now),
   ("last_active", JVal.n now),
   ("message_count", JVal.n 0),
   ("is_first_chat", JVal.b true),
   ("is_fallback", JVal.b true)]

/-- `RedisService.create_session` after its `_check_and_cleanup` call:
returns the fallback session when disconnected; otherwise deletes any
pre-existing user data, then writes the fresh session with `SETEX` and
returns it.  (No caller in the repository ever passes the optional
`session_data` argument, so it is not modelled.) -/
def create_session_after_cleanup (cfg : Config) (now : Nat) (uid : String) (r : RState) :
    RState × Dict :=
  if r.is_connected then
    let st := (delete_user_data uid r.store).setSess uid (fresh_session cfg uid now)
      (now + cfg.SESSION_TTL)
    ({ r with store := st }, fresh_session cfg uid now)
  else (r, create_fallback_session uid now)

/-- `RedisService.create_session`. -/
def create_session (cfg : Config) (now : Nat) (uid : String) (r : RState) : RState × Dict :=
  create_session_after_cleanup cfg now uid (check_and_cleanup cfg now r)

/-- `RedisService.update_session`: after cleanup and the connectivity check,
fetches the current session via `get_session` (creating one via
`create_session` when absent), applies the updates dict, stamps
`last_active` and `expires_at`, persists with a fresh TTL and reports
success. -/
def update_session (cfg : Config) (now : Nat) (uid : String) (updates : Dict) (r : RState) :
    RState × Bool :=
  let r1 := check_and_cleanup cfg now r
  if r1.is_connected then
    let got := get_session cfg now uid r1
    let r2 := got.1
    let base :=
      match got.2 with
      | some sess => (r2, sess)
      | none => create_session cfg now uid r2
    let sess1 := updates.foldl (fun d kv => d.set kv.1 kv.2) base.2
    let sess2 := (sess1.set "last_active" (JVal.n now)).set "expires_at"
      (JVal.n (now + cfg.SESSION_TTL))
    ({ base.1 with store := base.1.store.setSess uid sess2 (now + cfg.SESSION_TTL) }, true)
  else (r1, false)

/-- `RedisService.add_message` after its `_check_and_cleanup` call: when
connected, `RPUSH`es the message dict onto `history:{uid}` (an expired or
absent key starts a fresh list, per Redis) and re-arms the list's TTL to
the session TTL; returns whether the append happened.  It touches no other
key. -/
def add_message_after_cleanup (cfg : Config) (now : Nat) (uid : String)
    (role content : String) (r : RState) : RState × Bool :=
  if r.is_connected then
    let st := r.store.setHist uid (((r.store.getHist now uid).getD []) ++
      [⟨role, content, now, cfg.SESSION_TTL⟩]) (now + cfg.SESSION_TTL)
    ({ r with store := st }, true)
  else (r, false)

/-- `RedisService.add_message`. -/
def add_message (cfg : Config) (now : Nat) (uid : String) (role content : String)
    (r : RState) : RState × Bool :=
  add_message_after_cleanup cfg now uid role content (check_and_cleanup cfg now r)

/-- The `if not limit: limit = config.MAX_CHAT_HISTORY` default (Python's
`not` also replaces an explicit `0`). -/
def resolve_limit (cfg : Config) : Option Nat → Nat
  | none => cfg.MAX_CHAT_HISTORY
  | some l => if l = 0 then cfg.MAX_CHAT_HISTORY else l

/-- `RedisService.get_conversation_history` after its `_check_and_cleanup`
call: empty when disconnected; when `EXISTS session:{uid}` is false (raw
physical existence of the session key), deletes the history list and
returns empty; otherwise returns the last `limit` messages in insertion
order (`LLEN` + `LRANGE max(0, total-limit) -1`). -/
def get_conversation_history_after_cleanup (cfg : Config) (now : Nat) (uid : String)
    (limit : Option Nat) (r : RState) : RState × List HistMsg :=
  if r.is_connected then
    if (r.store.getSess now uid).isSome then
      let msgs := (r.store.getHist now uid).getD []
      (r, msgs.drop (msgs.length - resolve_limit cfg limit))
    else
      ({ r with store := r.store.delHist uid }, [])
  else (r, [])

/-- `RedisService.get_conversation_history`. -/
def get_conversation_history (cfg : Config) (now : Nat) (uid : String) (limit : Option Nat)
    (r : RState) : RState × List HistMsg :=
  get_conversation_history_after_cleanup cfg now uid limit (check_and_cleanup cfg now r)

/-- `RedisService.increment_message_count` after its `_check_and_cleanup`
call: `INCR stats:messages:{uid}` (an absent or expired key counts as 0)
then `EXPIRE` it to the session TTL. -/
def increment_message_count_after_cleanup (cfg : Config) (now : Nat) (uid : String)
    (r : RState) : RState × Bool :=
  if r.is_connected then
    let st := r.store.setStat uid (((r.store.getStat now uid).getD 0) + 1) (now + cfg.SESSION_TTL)
    ({ r with store := st }, true)
  else (r, false)

/-- `RedisService.increment_message_count`. -/
def increment_message_count (cfg : Config) (now : Nat) (uid : String) (r : RState) :
    RState × Bool :=
  increment_message_count_after_cleanup cfg now uid (check_and_cleanup cfg now r)

/-- Appending a list of `(role, content)` turns with `add_message`, all at
the same instant (the iteration pattern of `test_redis_chatbot.py`). -/
def add_messages (cfg : Config) (now : Nat) (uid : String) (ms : List (String × String))
    (r : RState) : RState :=
  ms.foldl (fun st m => (add_message cfg now uid m.1 m.2 st).1) r

/-- The stop-word set of `Chatbot._extract_keywords` in `src/main.py`. -/
def stop_words : List String :=
  ["tôi", "muốn", "mua", "cần", "có", "nào", "gì", "bao", "nhiêu", "tiền"]

/-- Python `str.lower()`.  Lean's `Char.toLower` lowers ASCII letters only;
every upper-case character the embedded claims exercise is ASCII, and the
source's stop words are already lower case. -/
def py_lower (s : String) : String :=
  ⟨s.data.map Char.toLower⟩

/-- Python `str.split()` restricted to the space character: splits on runs
of spaces and drops empty fragments. -/
def py_split_core : List Char → List Char → List String
  | [], acc => if acc.isEmpty then [] else [String.mk acc.reverse]
  | c :: rest, acc =>
    if c = ' ' then
      if acc.isEmpty then py_split_core rest []
      else String.mk acc.reverse :: py_split_core rest []
    else py_split_core rest (c :: acc)

/-- Python `str.split()` (space-separated words, empties dropped). -/
def py_split (s : String) : List String :=
  py_split_core s.data []

/-- Python `list(set(keywords))` keeps one copy of each keyword; its
iteration order is unspecified, so first-occurrence order is used here.
No property below depends on the order. -/
def dedup_first (l : List String) : List String :=
  l.foldl (fun acc x => if acc.contains x then acc else acc ++ [x]) []

/-- `Chatbot._extract_keywords`: lower-cases and splits the text, filters
out stop words and single-character words, appends the whole original text when it
is longer than 3 characters, and removes duplicates. -/
def extract_keywords (text : String) : List String :=
  let words := py_split (py_lower text)
  let kws := words.filter (fun w => !stop_words.contains w && decide (1 < w.length))
  let kws := if 3 < text.length then kws ++ [text] else kws
  dedup_first kws

/-- A call across the catalog-search boundary (`MongoDBHandler`): either a
text search or a fetch of specific product ids.  The repository's code only
ever issues text searches; the constructor `fetchByIds` exists so that the
absence of any such call is expressible. -/
inductive CatalogCall where
  | search (query : String)
  | fetchByIds (ids : List String)
  deriving Repr, DecidableEq

/-- Whether a catalog call is a text search. -/
def CatalogCall.isSearch : CatalogCall → Bool
  | .search _ => true
  | .fetchByIds _ => false

/-- The catalog calls issued by `Chatbot._search_relevant_products`: one
`db_handler.search_products(keyword, limit=3)` per extracted keyword. -/
def search_relevant_products_calls (userInput : String) : List CatalogCall :=
  (extract_keywords userInput).map CatalogCall.search

/-- The catalog calls of one `Chatbot.process_message` turn.
`process_message` invokes `self._search_relevant_products(user_input)`
unconditionally for every message — independent of the session and of the
message text — and performs no other catalog access of any kind. -/
def process_message_catalog_calls (userInput : String) : List CatalogCall :=
  search_relevant_products_calls userInput

/-- The per-user session dict built by `Chatbot._get_or_create_session` in
`src/main.py`.  It has exactly these five fields; in particular no
`carried_products` field exists anywhere in the repository. -/
structure ChatSession where
  user_id : String
  created_at : Nat
  last_active : Nat
  message_count : Nat
  is_first_chat : Bool
  deriving Repr, DecidableEq

/-- A small concrete configuration for the concrete runs below:
`SESSION_TTL = 100` seconds, `CLEANUP_INTERVAL_MINUTES = 1`,
`MAX_CHAT_HISTORY = 2`. -/
def cfgEx : Config := ⟨100, 1, 2⟩

/-- An empty backing store. -/
def emptyStore : Store := ⟨[], [], []⟩

/-- A freshly connected service over an empty store. -/
def rEx : RState := ⟨emptyStore, true, 0⟩

/-- A disconnected service over an empty store. -/
def rExDown : RState := ⟨emptyStore, false, 0⟩

/-- No data of any kind is stored for `uid`: the session, history and stats
key families all lack an entry. -/
def nodata (uid : String) (s : Store) : Prop :=
  alookup uid s.sessions = none ∧ alookup uid s.histories = none ∧
    alookup uid s.stats = none

instance (uid : String) (s : Store) : Decidable (nodata uid s) := by
  unfold nodata; infer_instance

/-- A sample stored history message. -/
def histMsgEx : HistMsg := ⟨"user", "hi", 0, 100⟩

/-- A store holding user `u` with a session record whose `last_active` is
long past (written at time 0) but which is still physically present at
time 200 (expiry 500), together with its history and counter; the sweep
clock was just reset. -/
def rC2 : RState :=
  ⟨⟨[("u", ⟨[("last_active", JVal.n 0)], 500⟩)],
    [("u", ⟨[histMsgEx], 500⟩)],
    [("u", ⟨3, 500⟩)]⟩, true, 200⟩

/-- A store where user `u`'s session is semantically expired at time 500
(`last_active = 0`, TTL 100) yet the session key physically persists until
time 1000; the sweep clock was just reset, so no sweep interferes. -/
def rC4 : RState :=
  ⟨⟨[("u", ⟨[("last_active", JVal.n 0)], 1000⟩)],
    [("u", ⟨[histMsgEx], 1000⟩)], []⟩, true, 500⟩

/-- A store where user `u`'s session key expired physically exactly at
`last_active + SESSION_TTL` (time 100) while the raw history list key
still physically exists at time 500 (expiry 5000). -/
def rC4w : RState :=
  ⟨⟨[("u", ⟨[("last_active", JVal.n 0)], 100⟩)],
    [("u", ⟨[histMsgEx], 5000⟩)], []⟩, true, 500⟩

/-- A configuration with a 10-second session TTL for the sweep run. -/
def cfgEx7 : Config := ⟨10, 1, 5⟩

/-- A store like `rC2` but for the colon-bearing user id `a:b`, with the
sweep due (`last_cleanup_time = 0`, read at time 200). -/
def rC2x : RState :=
  ⟨⟨[("a:b", ⟨[("last_active", JVal.n 0)], 500⟩)],
    [("a:b", ⟨[histMsgEx], 500⟩)],
    [("a:b", ⟨3, 500⟩)]⟩, true, 0⟩

/-- A store exercising the sweep's `split(":")[1]` key reconstruction:
user `a:b` is expired at time 95 under a 10-second TTL (inactive since
time 0) and owns a history list and a counter; user `a` is live
(`last_active = 90`) and owns a history list. -/
def rC7x : Store :=
  ⟨[("a:b", ⟨[("last_active", JVal.n 0)], 1000⟩),
    ("a", ⟨[("last_active", JVal.n 90)], 1000⟩)],
   [("a:b", ⟨[histMsgEx], 1000⟩), ("a", ⟨[histMsgEx], 1000⟩)],
   [("a:b", ⟨2, 1000⟩)]⟩

/-- A single live session for user `u` (`last_active = 40`, physically
present until 140) read at time 50; the sweep clock was just reset. -/
def rC8 : RState :=
  ⟨⟨[("u", ⟨[("last_active", JVal.n 40), ("is_first_chat", JVal.b true)], 140⟩)],
    [], []⟩, true, 50⟩

theorem alookup_aerase_self {α : Type} (k : String) (l : List (String × α)) :
    alookup k (aerase k l) = none := by
  induction l with
  | nil => rfl
  | cons p t ih =>
    obtain ⟨k', v⟩ := p
    by_cases h : k' = k
    · simp [aerase, h, ih]
    · simp [aerase, alookup, h, ih]

theorem alookup_aerase_ne {α : Type} {ke kl : String} (h : ke ≠ kl)
    (l : List (String × α)) : alookup kl (aerase ke l) = alookup kl l := by
  induction l with
  | nil => rfl
  | cons p t ih =>
    obtain ⟨k', v⟩ := p
    by_cases h1 : k' = ke
    · subst h1
      simp [aerase, alookup, ih, h]
    · simp [aerase, alookup, h1, ih]

theorem alookup_aerase_none {α : Type} (ke : String) {kl : String}
    {l : List (String × α)} (hl : alookup kl l = none) :
    alookup kl (aerase ke l) = none := by
  by_cases h : ke = kl
  · subst h; exact alookup_aerase_self ke l
  · rw [alookup_aerase_ne h]; exact hl

theorem alookup_aset_self {α : Type} (k : String) (v : α) (l : List (String × α)) :
    alookup k (aset k v l) = some v := by
  simp [aset, alookup]

theorem check_and_cleanup_skip {cfg : Config} {now : Nat} {r : RState}
    (h : ¬ cfg.CLEANUP_INTERVAL_MINUTES * 60 ≤ now - r.last_cleanup_time) :
    check_and_cleanup cfg now r = r := by
  simp [check_and_cleanup, h]

theorem check_and_cleanup_is_connected (cfg : Config) (now : Nat) (r : RState) :
    (check_and_cleanup cfg now r).is_connected = r.is_connected := by
  unfold check_and_cleanup
  by_cases h : cfg.CLEANUP_INTERVAL_MINUTES * 60 ≤ now - r.last_cleanup_time
  · by_cases h2 : r.is_connected <;> simp [h, h2]
  · simp [h]

theorem check_and_cleanup_store_disconnected {cfg : Config} {now : Nat} {r : RState}
    (h : r.is_connected = false) :
    (check_and_cleanup cfg now r).store = r.store := by
  unfold check_and_cleanup
  by_cases ht : cfg.CLEANUP_INTERVAL_MINUTES * 60 ≤ now - r.last_cleanup_time <;>
    simp [ht, h]

theorem cleanup_step_store_cases (cfg : Config) (now : Nat) (acc : Store × Nat)
    (k : String) :
    (cleanup_step cfg now acc k).1 = acc.1 ∨
      (cleanup_step cfg now acc k).1 = sweep_delete k acc.1 := by
  unfold cleanup_step
  cases h : acc.1.getSess now k with
  | none => left; simp
  | some sess =>
    cases h2 : sess.get "last_active" with
    | none => left; simp [h2]
    | some v =>
      cases v with
      | n la =>
        by_cases h3 : cfg.SESSION_TTL < now - la
        · right; simp [h2, h3]
        · left; simp [h2, h3]
      | s w => left; simp [h2]
      | b w => left; simp [h2]
      | ls w => left; simp [h2]

theorem nodata_delete_user_data_self (uid : String) (s : Store) :
    nodata uid (delete_user_data uid s) :=
  ⟨alookup_aerase_self uid s.sessions, alookup_aerase_self uid s.histories,
    alookup_aerase_self uid s.stats⟩

theorem nodata_sweep_delete {uid : String} (k : String) {s : Store} (h : nodata uid s) :
    nodata uid (sweep_delete k s) :=
  ⟨alookup_aerase_none k h.1, alookup_aerase_none (swept_user_id k) h.2.1,
    alookup_aerase_none (swept_user_id k) h.2.2⟩

theorem nodata_sweep_delete_self {uid : String} (hcol : swept_user_id uid = uid)
    (s : Store) : nodata uid (sweep_delete uid s) := by
  refine ⟨alookup_aerase_self uid s.sessions, ?_, ?_⟩
  · show alookup uid (aerase (swept_user_id uid) s.histories) = none
    rw [hcol]
    exact alookup_aerase_self uid s.histories
  · show alookup uid (aerase (swept_user_id uid) s.stats) = none
    rw [hcol]
    exact alookup_aerase_self uid s.stats

theorem cleanup_step_preserves_nodata {cfg : Config} {now : Nat} {uid : String}
    {acc : Store × Nat} (k : String) (h : nodata uid acc.1) :
    nodata uid (cleanup_step cfg now acc k).1 := by
  rcases cleanup_step_store_cases cfg now acc k with hc | hc <;> rw [hc]
  · exact h
  · exact nodata_sweep_delete k h

theorem foldl_cleanup_preserves_nodata {cfg : Config} {now : Nat} {uid : String} :
    ∀ (l : List String) (acc : Store × Nat), nodata uid acc.1 →
      nodata uid (l.foldl (cleanup_step cfg now) acc).1 := by
  intro l
  induction l with
  | nil => intro acc h; exact h
  | cons k t ih => intro acc h; exact ih _ (cleanup_step_preserves_nodata k h)

theorem cleanup_step_preserves_sess_none {cfg : Config} {now : Nat} {uid : String}
    {acc : Store × Nat} (k : String) (h : alookup uid acc.1.sessions = none) :
    alookup uid (cleanup_step cfg now acc k).1.sessions = none := by
  rcases cleanup_step_store_cases cfg now acc k with hc | hc <;> rw [hc]
  · exact h
  · exact alookup_aerase_none k h

theorem foldl_cleanup_preserves_sess_none {cfg : Config} {now : Nat} {uid : String} :
    ∀ (l : List String) (acc : Store × Nat), alookup uid acc.1.sessions = none →
      alookup uid ((l.foldl (cleanup_step cfg now) acc)).1.sessions = none := by
  intro l
  induction l with
  | nil => intro acc h; exact h
  | cons k t ih => intro acc h; exact ih _ (cleanup_step_preserves_sess_none k h)

theorem cleanup_step_ne_preserves {cfg : Config} {now : Nat} {uid : String}
    {acc : Store × Nat} {k : String} (hk : k ≠ uid) :
    alookup uid (cleanup_step cfg now acc k).1.sessions =
      alookup uid acc.1.sessions := by
  rcases cleanup_step_store_cases cfg now acc k with hc | hc <;> rw [hc]
  exact alookup_aerase_ne hk acc.1.sessions

theorem cleanup_step_self_expired {cfg : Config} {now : Nat} {uid : String}
    {acc : Store × Nat} {e : SessEntry} {la : Nat}
    (hlook : alookup uid acc.1.sessions = some e)
    (halive : now < e.expiry)
    (hla : e.record.get "last_active" = some (JVal.n la))
    (hexp : cfg.SESSION_TTL < now - la) :
    (cleanup_step cfg now acc uid).1 = sweep_delete uid acc.1 := by
  simp [cleanup_step, Store.getSess, hlook, halive, hla, hexp]

theorem foldl_cleanup_erases {cfg : Config} {now : Nat} {uid : String}
    {e : SessEntry} {la : Nat}
    (hcol : swept_user_id uid = uid)
    (halive : now < e.expiry)
    (hla : e.record.get "last_active" = some (JVal.n la))
    (hexp : cfg.SESSION_TTL < now - la) :
    ∀ (l : List String) (acc : Store × Nat), uid ∈ l →
      alookup uid acc.1.sessions = some e →
      nodata uid (l.foldl (cleanup_step cfg now) acc).1 := by
  intro l
  induction l with
  | nil => intro acc hmem; exact absurd hmem (List.not_mem_nil uid)
  | cons k t ih =>
    intro acc hmem hlook
    by_cases hk : k = uid
    · subst hk
      have hstep := cleanup_step_self_expired hlook halive hla hexp
      rw [List.foldl_cons]
      apply foldl_cleanup_preserves_nodata
      rw [hstep]
      exact nodata_sweep_delete_self hcol acc.1
    · have hpres := @cleanup_step_ne_preserves cfg now uid acc k hk
      have hmem' : uid ∈ t := by
        rcases List.mem_cons.1 hmem with h | h
        · exact absurd h.symm hk
        · exact h
      exact ih (cleanup_step cfg now acc k) hmem' (hpres.trans hlook)

theorem mem_filter_keys {now : Nat} {uid : String} {e : SessEntry} :
    ∀ {l : List (String × SessEntry)}, alookup uid l = some e → now < e.expiry →
      uid ∈ (l.filter (fun p => decide (now < p.2.expiry))).map (fun p => p.1) := by
  intro l
  induction l with
  | nil => intro hlook; simp [alookup] at hlook
  | cons p t ih =>
    intro hlook halive
    obtain ⟨k, e'⟩ := p
    by_cases hk : k = uid
    · subst hk
      have he : e' = e := by simpa [alookup] using hlook
      subst he
      simp [List.filter_cons, halive]
    · have hlook' : alookup uid t = some e := by simpa [alookup, hk] using hlook
      by_cases hd : now < e'.expiry
      · simpa [List.filter_cons, hd, hk] using Or.inr (ih hlook' halive)
      · simpa [List.filter_cons, hd] using ih hlook' halive

theorem mem_alive_session_keys {s : Store} {now : Nat} {uid : String} {e : SessEntry}
    (hlook : alookup uid s.sessions = some e) (halive : now < e.expiry) :
    uid ∈ alive_session_keys s now :=
  mem_filter_keys hlook halive

theorem cleanup_old_sessions_erases {cfg : Config} {now : Nat} {uid : String}
    {s : Store} {e : SessEntry} {la : Nat}
    (hcol : swept_user_id uid = uid)
    (hlook : alookup uid s.sessions = some e)
    (halive : now < e.expiry)
    (hla : e.record.get "last_active" = some (JVal.n la))
    (hexp : cfg.SESSION_TTL < now - la) :
    nodata uid (cleanup_old_sessions cfg now s).1 :=
  foldl_cleanup_erases hcol halive hla hexp (alive_session_keys s now) (s, 0)
    (mem_alive_session_keys hlook halive) hlook

theorem gsac_disconnected {cfg : Config} {now : Nat} {uid : String} {r : RState}
    (h : r.is_connected = false) :
    get_session_after_cleanup cfg now uid r = (r, none) := by
  simp [get_session_after_cleanup, h]

theorem gsac_absent {cfg : Config} {now : Nat} {uid : String} {r : RState}
    (habs : alookup uid r.store.sessions = none) :
    get_session_after_cleanup cfg now uid r = (r, none) := by
  by_cases hconn : r.is_connected
  · simp [get_session_after_cleanup, hconn, Store.getSess, habs]
  · simp [get_session_after_cleanup, hconn]

theorem gsac_reap {cfg : Config} {now : Nat} {uid : String} {r : RState}
    {e : SessEntry} {la : Nat}
    (hconn : r.is_connected = true)
    (hlook : alookup uid r.store.sessions = some e)
    (halive : now < e.expiry)
    (hla : e.record.get "last_active" = some (JVal.n la))
    (hexp : cfg.SESSION_TTL < now - la) :
    get_session_after_cleanup cfg now uid r =
      ({ r with store := delete_user_data uid r.store }, none) := by
  simp [get_session_after_cleanup, hconn, Store.getSess, hlook, halive, hla, hexp]

theorem gsac_refresh {cfg : Config} {now : Nat} {uid : String} {r : RState}
    {e : SessEntry} {la : Nat}
    (hconn : r.is_connected = true)
    (hlook : alookup uid r.store.sessions = some e)
    (halive : now < e.expiry)
    (hla : e.record.get "last_active" = some (JVal.n la))
    (hfresh : ¬ cfg.SESSION_TTL < now - la) :
    get_session_after_cleanup cfg now uid r =
      ({ r with store := r.store.setSess uid (e.record.set "last_active" (JVal.n now)) (now + cfg.SESSION_TTL) },
        some (e.record.set "last_active" (JVal.n now))) := by
  simp [get_session_after_cleanup, hconn, Store.getSess, hlook, halive, hla, hfresh]

theorem get_session_none_of_absent {cfg : Config} {now : Nat} {uid : String}
    {r : RState} (habs : alookup uid r.store.sessions = none) :
    (get_session cfg now uid r).2 = none := by
  unfold get_session
  have habs2 : alookup uid (check_and_cleanup cfg now r).store.sessions = none := by
    unfold check_and_cleanup
    by_cases ht : cfg.CLEANUP_INTERVAL_MINUTES * 60 ≤ now - r.last_cleanup_time
    · by_cases hcn : r.is_connected
      · simp only [ht, hcn, if_true]
        exact foldl_cleanup_preserves_sess_none _ _ habs
      · simp only [ht, if_true]
        simp [hcn]
        exact habs
    · simp only [ht, if_false]
      exact habs
  rw [gsac_absent habs2]

theorem getHist_setHist_self (s : Store) (now : Nat) (uid : String)
    (msgs : List HistMsg) (expiry : Nat) :
    (s.setHist uid msgs expiry).getHist now uid =
      if now < expiry then some msgs else none := by
  simp [Store.getHist, Store.setHist, alookup_aset_self]

theorem getStat_setStat_self (s : Store) (now : Nat) (uid : String)
    (count : Nat) (expiry : Nat) :
    (s.setStat uid count expiry).getStat now uid =
      if now < expiry then some count else none := by
  simp [Store.getStat, Store.setStat, alookup_aset_self]

theorem add_message_spec {cfg : Config} {now : Nat} {uid : String}
    {role content : String} {r : RState}
    (hconn : r.is_connected = true)
    (hskip : ¬ cfg.CLEANUP_INTERVAL_MINUTES * 60 ≤ now - r.last_cleanup_time) :
    add_message cfg now uid role content r =
      ({ r with store := r.store.setHist uid (((r.store.getHist now uid).getD []) ++ [⟨role, content, now, cfg.SESSION_TTL⟩]) (now + cfg.SESSION_TTL) }, true) := by
  unfold add_message
  rw [check_and_cleanup_skip hskip]
  simp [add_message_after_cleanup, hconn]

theorem add_messages_spec {cfg : Config} {now : Nat} {uid : String}
    (httl : 0 < cfg.SESSION_TTL) :
    ∀ (ms : List (String × String)) (r : RState),
      r.is_connected = true →
      ¬ cfg.CLEANUP_INTERVAL_MINUTES * 60 ≤ now - r.last_cleanup_time →
      (add_messages cfg now uid ms r).is_connected = true ∧
      (add_messages cfg now uid ms r).last_cleanup_time = r.last_cleanup_time ∧
      (add_messages cfg now uid ms r).store.sessions = r.store.sessions ∧
      (add_messages cfg now uid ms r).store.stats = r.store.stats ∧
      ((add_messages cfg now uid ms r).store.getHist now uid).getD [] =
        ((r.store.getHist now uid).getD []) ++
          ms.map (fun m => (⟨m.1, m.2, now, cfg.SESSION_TTL⟩ : HistMsg)) := by
  intro ms
  induction ms with
  | nil =>
    intro r hconn hskip
    exact ⟨hconn, rfl, rfl, rfl, by simp [add_messages]⟩
  | cons m t ih =>
    intro r hconn hskip
    have hstep := @add_message_spec cfg now uid m.1 m.2 r hconn hskip
    have hunf : add_messages cfg now uid (m :: t) r =
        add_messages cfg now uid t (add_message cfg now uid m.1 m.2 r).1 := by
      simp [add_messages]
    have hlt : now < now + cfg.SESSION_TTL := by omega
    have h1conn : (add_message cfg now uid m.1 m.2 r).1.is_connected = true := by
      rw [hstep]; exact hconn
    have h1skip : ¬ cfg.CLEANUP_INTERVAL_MINUTES * 60 ≤
        now - (add_message cfg now uid m.1 m.2 r).1.last_cleanup_time := by
      rw [hstep]; exact hskip
    have h1lct : (add_message cfg now uid m.1 m.2 r).1.last_cleanup_time =
        r.last_cleanup_time := by rw [hstep]
    have h1sess : (add_message cfg now uid m.1 m.2 r).1.store.sessions =
        r.store.sessions := by rw [hstep]; rfl
    have h1stats : (add_message cfg now uid m.1 m.2 r).1.store.stats =
        r.store.stats := by rw [hstep]; rfl
    have h1hist : ((add_message cfg now uid m.1 m.2 r).1.store.getHist now uid).getD [] =
        ((r.store.getHist now uid).getD []) ++ [⟨m.1, m.2, now, cfg.SESSION_TTL⟩] := by
      rw [hstep]; simp [getHist_setHist_self, hlt]
    rw [hunf]
    have hrec := ih _ h1conn h1skip
    refine ⟨hrec.1, hrec.2.1.trans h1lct, hrec.2.2.1.trans h1sess,
      hrec.2.2.2.1.trans h1stats, ?_⟩
    rw [hrec.2.2.2.2, h1hist]
    simp

/-- C2 counterexample: for the colon-bearing user id `a:b` with the
periodic sweep due, `get_session` on the expired record returns absent,
but the sweep's `session_key.split(":")[1]` key reconstruction deletes
`history:a` and `stats:messages:a` instead of `a:b`'s own keys, so after
the call the user's history and counter keys still exist in the backing
store — the claim's "all deleted" conclusion fails. -/
theorem lazy_reap_misses_colon_uid_counterexample :
    cfgEx.SESSION_TTL < 200 - 0 ∧
      (get_session cfgEx 200 "a:b" rC2x).2 = none ∧
      alookup "a:b" (get_session cfgEx 200 "a:b" rC2x).1.store.histories =
        some ⟨[histMsgEx], 500⟩ ∧
      alookup "a:b" (get_session cfgEx 200 "a:b" rC2x).1.store.stats =
        some ⟨3, 500⟩ := by
  decide

/-- C2 amended: for every user whose stored (physically present) session
record has an age since `last_active` exceeding `SESSION_TTL`,
`get_session` returns absent; and whenever the user id contains no colon
(so the sweep's `session_key.split(":")[1]` reconstruction returns the
id itself) or the embedded periodic sweep is not due (so the lazy branch
`_delete_user_data`, which keys all three deletions by the exact user id,
performs the reaping), the session key, the history key and the per-user
counter key are afterwards all deleted from the backing store. -/
theorem get_session_reaps_expired (cfg : Config) (now : Nat) (uid : String)
    (r : RState) (e : SessEntry) (la : Nat)
    (hconn : r.is_connected = true)
    (hlook : alookup uid r.store.sessions = some e)
    (halive : now < e.expiry)
    (hla : e.record.get "last_active" = some (JVal.n la))
    (hexp : cfg.SESSION_TTL < now - la)
    (hok : swept_user_id uid = uid ∨
      ¬ cfg.CLEANUP_INTERVAL_MINUTES * 60 ≤ now - r.last_cleanup_time) :
    (get_session cfg now uid r).2 = none ∧
      nodata uid (get_session cfg now uid r).1.store := by
  unfold get_session
  by_cases htrig : cfg.CLEANUP_INTERVAL_MINUTES * 60 ≤ now - r.last_cleanup_time
  · have hcol : swept_user_id uid = uid := hok.resolve_right (fun h => h htrig)
    have hnod : nodata uid (cleanup_old_sessions cfg now r.store).1 :=
      cleanup_old_sessions_erases hcol hlook halive hla hexp
    have hc : check_and_cleanup cfg now r =
        { r with store := (cleanup_old_sessions cfg now r.store).1, last_cleanup_time := now } := by
      simp [check_and_cleanup, htrig, hconn]
    rw [hc, gsac_absent hnod.1]
    exact ⟨rfl, hnod⟩
  · rw [check_and_cleanup_skip htrig, gsac_reap hconn hlook halive hla hexp]
    exact ⟨rfl, nodata_delete_user_data_self uid r.store⟩

/-- Witness for C2 amended: at time 200, the colon-free user `u`'s record
(`last_active = 0`, TTL 100) is reaped by a single `get_session` call. -/
theorem get_session_reaps_expired_witness :
    cfgEx.SESSION_TTL < 200 - 0 ∧
      ((get_session cfgEx 200 "u" rC2).2 = none ∧
        nodata "u" (get_session cfgEx 200 "u" rC2).1.store) :=
  ⟨by decide,
    get_session_reaps_expired cfgEx 200 "u" rC2 ⟨[("last_active", JVal.n 0)], 500⟩ 0
      (by decide) (by decide) (by decide) (by decide) (by decide)
      (Or.inl (by decide))⟩

/-- C4 counterexample: `get_conversation_history` checks only the raw
physical existence of the session key, not the record manager's expiry
semantics.  In a store state where user `u`'s session key physically
persists (until time 1000) although its age since `last_active` exceeds
`SESSION_TTL` (100 < 500), `recent` serves the stale history instead of
returning the empty sequence the claim requires. -/
theorem recent_serves_stale_history_counterexample :
    cfgEx.SESSION_TTL < 500 - 0 ∧
      (get_conversation_history cfgEx 500 "u" (some 5) rC4).2 ≠ [] := by decide

/-- C4 amended: `recent` checks only `EXISTS session:{uid}`; because every
write of a session record arms the key's physical TTL to the sliding
window anchored at `last_active`, in every state where the session key's
physical expiry is at most `last_active + SESSION_TTL` (true of all states
the service itself produces), semantic expiry implies the key is
physically gone, so `recent` returns the empty sequence and deletes the
history list — even if the raw history list key still physically exists. -/
theorem recent_empty_when_expiry_tracks_last_active (cfg : Config) (now : Nat)
    (uid : String) (limit : Option Nat) (r : RState) (e : SessEntry) (la : Nat)
    (hconn : r.is_connected = true)
    (hskip : ¬ cfg.CLEANUP_INTERVAL_MINUTES * 60 ≤ now - r.last_cleanup_time)
    (hlook : alookup uid r.store.sessions = some e)
    (hla : e.record.get "last_active" = some (JVal.n la))
    (hphys : e.expiry ≤ la + cfg.SESSION_TTL)
    (hsem : cfg.SESSION_TTL < now - la) :
    (get_conversation_history cfg now uid limit r).2 = [] ∧
      alookup uid (get_conversation_history cfg now uid limit r).1.store.histories =
        none := by
  have hdead : ¬ now < e.expiry := by omega
  unfold get_conversation_history
  rw [check_and_cleanup_skip hskip]
  have hgs : r.store.getSess now uid = none := by
    simp [Store.getSess, hlook, hdead]
  have hres : get_conversation_history_after_cleanup cfg now uid limit r =
      ({ r with store := r.store.delHist uid }, []) := by
    simp [get_conversation_history_after_cleanup, hconn, hgs]
  rw [hres]
  exact ⟨rfl, alookup_aerase_self uid r.store.histories⟩

/-- Witness for C4 amended: the session key of `rC4w` expired physically at
`last_active + SESSION_TTL = 100`, the history list key still physically
exists at time 500, and `recent` returns empty while deleting the list. -/
theorem recent_empty_when_expiry_tracks_last_active_witness :
    cfgEx.SESSION_TTL < 500 - 0 ∧
      ((get_conversation_history cfgEx 500 "u" (some 5) rC4w).2 = [] ∧
        alookup "u"
          (get_conversation_history cfgEx 500 "u" (some 5) rC4w).1.store.histories =
          none) :=
  ⟨by decide,
    recent_empty_when_expiry_tracks_last_active cfgEx 500 "u" (some 5) rC4w
      ⟨[("last_active", JVal.n 0)], 100⟩ 0 (by decide) (by decide) (by decide)
      (by decide) (by decide) (by decide)⟩

/-- C7 failing input: one `_cleanup_old_sessions` pass at time 95 with a
10-second TTL over `rC7x` deletes the expired session key `a:b` (the
deletion is counted), but — because the sweep reconstructs the user id as
`session_key.split(":")[1] = "a"` — it leaves `a:b`'s own history list
and counter in the store, while the live user `a` keeps its session yet
wrongly loses its history list.  The claim says the sweep deletes exactly
the expired sessions together with their history and counters and leaves
every non-expired session's data intact. -/
theorem sweep_wrong_key_failing_input :
    (cleanup_old_sessions cfgEx7 95 rC7x).2 = 1 ∧
      alookup "a:b" (cleanup_old_sessions cfgEx7 95 rC7x).1.sessions = none ∧
      alookup "a:b" (cleanup_old_sessions cfgEx7 95 rC7x).1.histories =
        some ⟨[histMsgEx], 1000⟩ ∧
      alookup "a:b" (cleanup_old_sessions cfgEx7 95 rC7x).1.stats =
        some ⟨2, 1000⟩ ∧
      alookup "a" (cleanup_old_sessions cfgEx7 95 rC7x).1.sessions =
        some ⟨[("last_active", JVal.n 90)], 1000⟩ ∧
      alookup "a" (cleanup_old_sessions cfgEx7 95 rC7x).1.histories = none := by
  decide

/-- C8: a `get_session` of a present, live session (age since
`last_active` within `SESSION_TTL`) refreshes `last_active` to the current
time and rewrites the record with the full configured TTL before
returning it: the stored entry's physical expiry becomes
`now + SESSION_TTL` (sliding window, not fixed expiry). -/
theorem get_session_refreshes_live (cfg : Config) (now : Nat) (uid : String)
    (r : RState) (e : SessEntry) (la : Nat)
    (hconn : r.is_connected = true)
    (hskip : ¬ cfg.CLEANUP_INTERVAL_MINUTES * 60 ≤ now - r.last_cleanup_time)
    (hlook : alookup uid r.store.sessions = some e)
    (halive : now < e.expiry)
    (hla : e.record.get "last_active" = some (JVal.n la))
    (hfresh : now - la ≤ cfg.SESSION_TTL) :
    (get_session cfg now uid r).2 = some (e.record.set "last_active" (JVal.n now)) ∧
      alookup uid (get_session cfg now uid r).1.store.sessions =
        some ⟨e.record.set "last_active" (JVal.n now), now + cfg.SESSION_TTL⟩ := by
  have hfresh' : ¬ cfg.SESSION_TTL < now - la := by omega
  unfold get_session
  rw [check_and_cleanup_skip hskip, gsac_refresh hconn hlook halive hla hfresh']
  exact ⟨rfl, alookup_aset_self uid _ r.store.sessions⟩

/-- C5 counterexample: the session record written by `create_session` has
no `carried_products` key at all (rather than `carried_products = []`),
and the record returned by an immediately following `get_session` has
none either. -/
theorem create_session_no_carried_products_counterexample :
    ((create_session cfgEx 0 "u" rEx).2).get "carried_products" = none ∧
      ((get_session cfgEx 0 "u" (create_session cfgEx 0 "u" rEx).1).2).map
        (fun d => d.get "carried_products") = some none := by decide

/-- C5 amended: `create_session` deletes any pre-existing session record,
history and counter for the user, then writes a fresh session with
`message_count = 0` and `is_first_chat = true` and no `carried_products`
key (the record manager has no such field); an immediate `get_session`
returns that fresh record with its `last_active` re-stamped. -/
theorem create_session_fresh (cfg : Config) (t : Nat) (uid : String) (r : RState)
    (hconn : r.is_connected = true)
    (httl : 0 < cfg.SESSION_TTL)
    (hint : 0 < cfg.CLEANUP_INTERVAL_MINUTES) :
    (create_session cfg t uid r).2 = fresh_session cfg uid t ∧
    (fresh_session cfg uid t).get "message_count" = some (JVal.n 0) ∧
    (fresh_session cfg uid t).get "is_first_chat" = some (JVal.b true) ∧
    (fresh_session cfg uid t).get "carried_products" = none ∧
    alookup uid (create_session cfg t uid r).1.store.histories = none ∧
    alookup uid (create_session cfg t uid r).1.store.stats = none ∧
    alookup uid (create_session cfg t uid r).1.store.sessions =
      some ⟨fresh_session cfg uid t, t + cfg.SESSION_TTL⟩ ∧
    (get_session cfg t uid (create_session cfg t uid r).1).2 =
      some ((fresh_session cfg uid t).set "last_active" (JVal.n t)) := by
  have hconn1 : (check_and_cleanup cfg t r).is_connected = true :=
    (check_and_cleanup_is_connected cfg t r).trans hconn
  have hcr : create_session cfg t uid r =
      ({ check_and_cleanup cfg t r with store := (delete_user_data uid (check_and_cleanup cfg t r).store).setSess uid (fresh_session cfg uid t) (t + cfg.SESSION_TTL) }, fresh_session cfg uid t) := by
    unfold create_session create_session_after_cleanup
    simp [hconn1]
  have h60 : 0 < cfg.CLEANUP_INTERVAL_MINUTES * 60 := by positivity
  have hlcb : ¬ cfg.CLEANUP_INTERVAL_MINUTES * 60 ≤
      t - (check_and_cleanup cfg t r).last_cleanup_time := by
    unfold check_and_cleanup
    by_cases ht : cfg.CLEANUP_INTERVAL_MINUTES * 60 ≤ t - r.last_cleanup_time
    · by_cases hcn : r.is_connected <;> simp [ht, hcn] <;> omega
    · simp [ht]
  refine ⟨by rw [hcr], rfl, rfl, rfl, ?_, ?_, ?_, ?_⟩
  · rw [hcr]
    exact alookup_aerase_self uid _
  · rw [hcr]
    exact alookup_aerase_self uid _
  · rw [hcr]
    exact alookup_aset_self uid _ _
  · rw [hcr]
    have hrlskip : ¬ cfg.CLEANUP_INTERVAL_MINUTES * 60 ≤
        t - ({ check_and_cleanup cfg t r with store := (delete_user_data uid (check_and_cleanup cfg t r).store).setSess uid (fresh_session cfg uid t) (t + cfg.SESSION_TTL) } : RState).last_cleanup_time := hlcb
    have hconnRL : ({ check_and_cleanup cfg t r with store := (delete_user_data uid (check_and_cleanup cfg t r).store).setSess uid (fresh_session cfg uid t) (t + cfg.SESSION_TTL) } : RState).is_connected = true := hconn1
    have hlookRL : alookup uid ({ check_and_cleanup cfg t r with store := (delete_user_data uid (check_and_cleanup cfg t r).store).setSess uid (fresh_session cfg uid t) (t + cfg.SESSION_TTL) } : RState).store.sessions = some ⟨fresh_session cfg uid t, t + cfg.SESSION_TTL⟩ :=
      alookup_aset_self uid _ _
    have haliveRL : t < t + cfg.SESSION_TTL := by omega
    have hlaRL : (fresh_session cfg uid t).get "last_active" = some (JVal.n t) := rfl
    have hfreshRL : ¬ cfg.SESSION_TTL < t - t := by omega
    unfold get_session
    rw [check_and_cleanup_skip hrlskip,
      gsac_refresh hconnRL hlookRL haliveRL hlaRL hfreshRL]

/-- Witness for C5 amended at an empty connected store. -/
theorem create_session_fresh_witness :
    (0 : Nat) < cfgEx.SESSION_TTL ∧
      ((create_session cfgEx 0 "u" rEx).2 = fresh_session cfgEx "u" 0 ∧
        (fresh_session cfgEx "u" 0).get "message_count" = some (JVal.n 0) ∧
        (fresh_session cfgEx "u" 0).get "is_first_chat" = some (JVal.b true) ∧
        (fresh_session cfgEx "u" 0).get "carried_products" = none ∧
        alookup "u" (create_session cfgEx 0 "u" rEx).1.store.histories = none ∧
        alookup "u" (create_session cfgEx 0 "u" rEx).1.store.stats = none ∧
        alookup "u" (create_session cfgEx 0 "u" rEx).1.store.sessions =
          some ⟨fresh_session cfgEx "u" 0, 0 + cfgEx.SESSION_TTL⟩ ∧
        (get_session cfgEx 0 "u" (create_session cfgEx 0 "u" rEx).1).2 =
          some ((fresh_session cfgEx "u" 0).set "last_active" (JVal.n 0))) :=
  ⟨by decide, create_session_fresh cfgEx 0 "u" rEx (by decide) (by decide) (by decide)⟩

/-- C1 counterexample: with the configured cap `MAX_CHAT_HISTORY = 2`,
three appends leave a stored list of length 3 (no trimming happens), and
`recent(limit = cap + 1 = 3)` returns 3 entries instead of exactly
`cap = 2`. -/
theorem append_never_trims_counterexample :
    cfgEx.MAX_CHAT_HISTORY = 2 ∧
      (alookup "u" (add_messages cfgEx 0 "u" [("user", "m1"), ("user", "m2"), ("user", "m3")] (create_session cfgEx 0 "u" rEx).1).store.histories).map
          (fun e => e.msgs.length) = some 3 ∧
      (get_conversation_history cfgEx 0 "u" (some 3)
          (add_messages cfgEx 0 "u" [("user", "m1"), ("user", "m2"), ("user", "m3")] (create_session cfgEx 0 "u" rEx).1)).2.length = 3 := by
  decide

/-- C1 amended: `add_message` never trims the stored list — after any
sequence of appends the list holds all previous entries followed by the
appended ones, in insertion order — and `recent(limit)` returns the last
`min(total, limit)` entries in original insertion order (the suffix
obtained by dropping `total - limit` from the front). -/
theorem recent_returns_min_of_total_and_limit (cfg : Config) (now : Nat)
    (uid : String) (r : RState) (ms : List (String × String)) (L : Nat)
    (e : SessEntry)
    (hconn : r.is_connected = true)
    (hskip : ¬ cfg.CLEANUP_INTERVAL_MINUTES * 60 ≤ now - r.last_cleanup_time)
    (httl : 0 < cfg.SESSION_TTL)
    (hL : L ≠ 0)
    (hlook : alookup uid r.store.sessions = some e)
    (halive : now < e.expiry) :
    ((add_messages cfg now uid ms r).store.getHist now uid).getD [] =
      ((r.store.getHist now uid).getD []) ++
        ms.map (fun m => (⟨m.1, m.2, now, cfg.SESSION_TTL⟩ : HistMsg)) ∧
    (get_conversation_history cfg now uid (some L) (add_messages cfg now uid ms r)).2 =
      (((r.store.getHist now uid).getD []) ++
          ms.map (fun m => (⟨m.1, m.2, now, cfg.SESSION_TTL⟩ : HistMsg))).drop
        ((((r.store.getHist now uid).getD []) ++
            ms.map (fun m => (⟨m.1, m.2, now, cfg.SESSION_TTL⟩ : HistMsg))).length - L) := by
  obtain ⟨hc1, hc2, hc3, hc4, hc5⟩ := add_messages_spec httl ms r hconn hskip
  refine ⟨hc5, ?_⟩
  unfold get_conversation_history
  have hskip4 : ¬ cfg.CLEANUP_INTERVAL_MINUTES * 60 ≤
      now - (add_messages cfg now uid ms r).last_cleanup_time := by
    rw [hc2]; exact hskip
  rw [check_and_cleanup_skip hskip4]
  have hgs : (add_messages cfg now uid ms r).store.getSess now uid = some e.record := by
    simp [Store.getSess, hc3, hlook, halive]
  have hlim : resolve_limit cfg (some L) = L := by simp [resolve_limit, hL]
  simp [get_conversation_history_after_cleanup, hc1, hgs, hlim, hc5]

/-- Witness for C1 amended: three appends on a fresh session, read back
with limit 3, return all three entries in order. -/
theorem recent_returns_min_of_total_and_limit_witness :
    (3 : Nat) ≠ 0 ∧
      (((add_messages cfgEx 0 "u" [("user", "m1"), ("user", "m2"), ("user", "m3")] (create_session cfgEx 0 "u" rEx).1).store.getHist 0 "u").getD [] =
        (((create_session cfgEx 0 "u" rEx).1.store.getHist 0 "u").getD []) ++
          [("user", "m1"), ("user", "m2"), ("user", "m3")].map
            (fun m => (⟨m.1, m.2, 0, cfgEx.SESSION_TTL⟩ : HistMsg)) ∧
      (get_conversation_history cfgEx 0 "u" (some 3)
          (add_messages cfgEx 0 "u" [("user", "m1"), ("user", "m2"), ("user", "m3")] (create_session cfgEx 0 "u" rEx).1)).2 =
        ((((create_session cfgEx 0 "u" rEx).1.store.getHist 0 "u").getD []) ++
            [("user", "m1"), ("user", "m2"), ("user", "m3")].map
              (fun m => (⟨m.1, m.2, 0, cfgEx.SESSION_TTL⟩ : HistMsg))).drop
          (((((create_session cfgEx 0 "u" rEx).1.store.getHist 0 "u").getD []) ++
              [("user", "m1"), ("user", "m2"), ("user", "m3")].map
                (fun m => (⟨m.1, m.2, 0, cfgEx.SESSION_TTL⟩ : HistMsg))).length - 3)) :=
  ⟨by decide,
    recent_returns_min_of_total_and_limit cfgEx 0 "u" (create_session cfgEx 0 "u" rEx).1
      [("user", "m1"), ("user", "m2"), ("user", "m3")] 3
      ⟨fresh_session cfgEx "u" 0, 0 + cfgEx.SESSION_TTL⟩ (by decide) (by decide)
      (by decide) (by decide) (by decide) (by decide)⟩

theorem dedup_foldl_length (l : List String) : ∀ acc : List String,
    acc.length ≤
      (l.foldl (fun acc x => if acc.contains x then acc else acc ++ [x]) acc).length := by
  induction l with
  | nil => intro acc; exact Nat.le_refl _
  | cons x t ih =>
    intro acc
    rw [List.foldl_cons]
    by_cases h : acc.contains x = true
    · rw [if_pos h]
      exact ih acc
    · rw [if_neg h]
      have h3 : acc.length ≤ (acc ++ [x]).length := by simp
      exact h3.trans (ih (acc ++ [x]))

theorem dedup_first_ne_nil {l : List String} (h : l ≠ []) : dedup_first l ≠ [] := by
  cases l with
  | nil => exact absurd rfl h
  | cons a t =>
    unfold dedup_first
    rw [List.foldl_cons]
    have hstep : (if ([] : List String).contains a then ([] : List String) else [] ++ [a]) = [a] := rfl
    rw [hstep]
    have h2 := dedup_foldl_length t [a]
    intro hnil
    rw [hnil] at h2
    simp at h2

/-- C3 counterexample: for the follow-up message "which one is cheapest?"
the turn is not a reuse — `process_message` issues one catalog search per
extracted keyword (five of them) and performs no fetch-by-ids call. -/
theorem followup_turn_issues_search_counterexample :
    process_message_catalog_calls "which one is cheapest?" =
      [CatalogCall.search "which", CatalogCall.search "one", CatalogCall.search "is",
        CatalogCall.search "cheapest?",
        CatalogCall.search "which one is cheapest?"] ∧
      process_message_catalog_calls "which one is cheapest?" ≠ [] := by decide

/-- C3 amended: the chatbot has no reuse path at all — every turn of
`process_message` issues only catalog text searches (one per extracted
keyword), never a fetch-by-ids, and for every message longer than three
characters at least one search is issued, regardless of the session
state. -/
theorem every_turn_searches (msg : String) (hlen : 3 < msg.length) :
    (∀ c ∈ process_message_catalog_calls msg, c.isSearch = true) ∧
      process_message_catalog_calls msg ≠ [] := by
  constructor
  · intro c hc
    rcases List.mem_map.1 hc with ⟨q, hq, rfl⟩
    rfl
  · have hne : extract_keywords msg ≠ [] := by
      simp only [extract_keywords]
      rw [if_pos hlen]
      apply dedup_first_ne_nil
      simp
    cases h : extract_keywords msg with
    | nil => exact absurd h hne
    | cons a t =>
      simp [process_message_catalog_calls, search_relevant_products_calls, h]

/-- Witness for C3 amended at the follow-up phrase. -/
theorem every_turn_searches_witness :
    3 < ("which one is cheapest?").length ∧
      ((∀ c ∈ process_message_catalog_calls "which one is cheapest?",
          c.isSearch = true) ∧
        process_message_catalog_calls "which one is cheapest?" ≠ []) :=
  ⟨by decide, every_turn_searches "which one is cheapest?" (by decide)⟩

/-- C6 counterexample: a successful `add_message` increments nothing —
after appending one message to a freshly created session, the session
record's `message_count` is still 0 and the per-user stats counter key
does not exist. -/
theorem append_does_not_increment_counterexample :
    (add_message cfgEx 0 "u" "user" "hi" (create_session cfgEx 0 "u" rEx).1).2 = true ∧
      ((get_session cfgEx 0 "u" (add_message cfgEx 0 "u" "user" "hi" (create_session cfgEx 0 "u" rEx).1).1).2).map
          (fun d => d.get "message_count") = some (some (JVal.n 0)) ∧
      alookup "u" (add_message cfgEx 0 "u" "user" "hi" (create_session cfgEx 0 "u" rEx).1).1.store.stats = none := by
  decide

/-- C6 amended: `add_message` never updates any counter — a successful
append leaves both the session key family (hence the record's
`message_count` field) and the stats counter family untouched; the
per-user counter changes only through the separate
`increment_message_count` operation, which adds 1 to it (and also never
touches the session record's `message_count`). -/
theorem append_leaves_counters_unchanged (cfg : Config) (now : Nat)
    (uid role content : String) (r : RState)
    (hconn : r.is_connected = true)
    (hskip : ¬ cfg.CLEANUP_INTERVAL_MINUTES * 60 ≤ now - r.last_cleanup_time)
    (httl : 0 < cfg.SESSION_TTL) :
    (add_message cfg now uid role content r).2 = true ∧
    (add_message cfg now uid role content r).1.store.sessions = r.store.sessions ∧
    (add_message cfg now uid role content r).1.store.stats = r.store.stats ∧
    (increment_message_count cfg now uid r).2 = true ∧
    (increment_message_count cfg now uid r).1.store.sessions = r.store.sessions ∧
    (increment_message_count cfg now uid r).1.store.getStat now uid =
      some (((r.store.getStat now uid).getD 0) + 1) := by
  have hstep := @add_message_spec cfg now uid role content r hconn hskip
  have hlt : now < now + cfg.SESSION_TTL := by omega
  have hinc : increment_message_count cfg now uid r =
      ({ r with store := r.store.setStat uid (((r.store.getStat now uid).getD 0) + 1) (now + cfg.SESSION_TTL) }, true) := by
    unfold increment_message_count
    rw [check_and_cleanup_skip hskip]
    simp [increment_message_count_after_cleanup, hconn]
  refine ⟨by rw [hstep], by rw [hstep]; rfl, by rw [hstep]; rfl,
    by rw [hinc], by rw [hinc]; rfl, ?_⟩
  rw [hinc]
  simp [getStat_setStat_self, hlt]

/-- Witness for C6 amended: append then increment on a fresh session. -/
theorem append_leaves_counters_unchanged_witness :
    (0 : Nat) < cfgEx.SESSION_TTL ∧
      ((add_message cfgEx 0 "u" "user" "hi" (create_session cfgEx 0 "u" rEx).1).2 = true ∧
        (add_message cfgEx 0 "u" "user" "hi" (create_session cfgEx 0 "u" rEx).1).1.store.sessions =
          (create_session cfgEx 0 "u" rEx).1.store.sessions ∧
        (add_message cfgEx 0 "u" "user" "hi" (create_session cfgEx 0 "u" rEx).1).1.store.stats =
          (create_session cfgEx 0 "u" rEx).1.store.stats ∧
        (increment_message_count cfgEx 0 "u" (create_session cfgEx 0 "u" rEx).1).2 = true ∧
        (increment_message_count cfgEx 0 "u" (create_session cfgEx 0 "u" rEx).1).1.store.sessions =
          (create_session cfgEx 0 "u" rEx).1.store.sessions ∧
        (increment_message_count cfgEx 0 "u" (create_session cfgEx 0 "u" rEx).1).1.store.getStat 0 "u" =
          some ((((create_session cfgEx 0 "u" rEx).1.store.getStat 0 "u").getD 0) + 1)) :=
  ⟨by decide,
    append_leaves_counters_unchanged cfgEx 0 "u" "user" "hi"
      (create_session cfgEx 0 "u" rEx).1 (by decide) (by decide) (by decide)⟩

/-- C9 counterexample: when the backing store is unreachable,
`create_session` does not return an absent/empty/failure value
(None, empty list, or false) as the claim states for all five operations —
it returns a fully populated in-memory fallback session dict. -/
theorem create_returns_object_when_down_counterexample :
    (create_session cfgEx 0 "u" rExDown).2 = create_fallback_session "u" 0 ∧
      ((create_session cfgEx 0 "u" rExDown).2).get "user_id" = some (JVal.s "u") ∧
      ((create_session cfgEx 0 "u" rExDown).2).get "is_fallback" = some (JVal.b true) := by
  decide

/-- C9 amended: when the backing store is unreachable (`is_connected`
false), `get_session` returns absent, `add_message` and `update_session`
return failure, and `get_conversation_history` returns the empty list —
none of them can raise to the caller in the model — while
`create_session` degrades differently: it returns the in-memory fallback
session object rather than an absent/empty/failure value. -/
theorem ops_degrade_when_disconnected (cfg : Config) (now : Nat)
    (uid role content : String) (updates : Dict) (limit : Option Nat) (r : RState)
    (hdisc : r.is_connected = false) :
    (get_session cfg now uid r).2 = none ∧
    (add_message cfg now uid role content r).2 = false ∧
    (update_session cfg now uid updates r).2 = false ∧
    (get_conversation_history cfg now uid limit r).2 = [] ∧
    (create_session cfg now uid r).2 = create_fallback_session uid now := by
  have h1 : (check_and_cleanup cfg now r).is_connected = false :=
    (check_and_cleanup_is_connected cfg now r).trans hdisc
  refine ⟨?_, ?_, ?_, ?_, ?_⟩
  · unfold get_session
    rw [gsac_disconnected h1]
  · unfold add_message
    simp [add_message_after_cleanup, h1]
  · unfold update_session
    simp [h1]
  · unfold get_conversation_history
    simp [get_conversation_history_after_cleanup, h1]
  · unfold create_session
    simp [create_session_after_cleanup, h1]

/-- Witness for C9 amended at a disconnected service. -/
theorem ops_degrade_when_disconnected_witness :
    rExDown.is_connected = false ∧
      ((get_session cfgEx 0 "u" rExDown).2 = none ∧
        (add_message cfgEx 0 "u" "user" "hi" rExDown).2 = false ∧
        (update_session cfgEx 0 "u" [("a", JVal.n 1)] rExDown).2 = false ∧
        (get_conversation_history cfgEx 0 "u" (some 5) rExDown).2 = [] ∧
        (create_session cfgEx 0 "u" rExDown).2 = create_fallback_session "u" 0) :=
  ⟨by decide,
    ops_degrade_when_disconnected cfgEx 0 "u" "user" "hi" [("a", JVal.n 1)]
      (some 5) rExDown (by decide)⟩

/-- C10: when the backing store is not connected, `create_session` returns
an in-memory fallback session marked `is_fallback = true` with
`message_count = 0` and `is_first_chat = true`; the store is left
untouched, so for a user without a stored session a subsequent
`get_session` — whatever the connection flag, sweep clock or time —
returns absent rather than that fallback session. -/
theorem fallback_session_never_persisted (cfg : Config) (now : Nat) (uid : String)
    (r : RState)
    (hdisc : r.is_connected = false)
    (habs : alookup uid r.store.sessions = none) :
    (create_session cfg now uid r).2 = create_fallback_session uid now ∧
    (create_fallback_session uid now).get "is_fallback" = some (JVal.b true) ∧
    (create_fallback_session uid now).get "message_count" = some (JVal.n 0) ∧
    (create_fallback_session uid now).get "is_first_chat" = some (JVal.b true) ∧
    (create_session cfg now uid r).1.store = r.store ∧
    (∀ (b : Bool) (lc now2 : Nat),
      (get_session cfg now2 uid ⟨r.store, b, lc⟩).2 = none) := by
  have h1 : (check_and_cleanup cfg now r).is_connected = false :=
    (check_and_cleanup_is_connected cfg now r).trans hdisc
  have h2 : (check_and_cleanup cfg now r).store = r.store :=
    check_and_cleanup_store_disconnected hdisc
  have hcr : create_session cfg now uid r =
      (check_and_cleanup cfg now r, create_fallback_session uid now) := by
    unfold create_session
    simp [create_session_after_cleanup, h1]
  refine ⟨by rw [hcr], rfl, rfl, rfl, by rw [hcr]; exact h2, ?_⟩
  intro b lc now2
  exact get_session_none_of_absent habs

/-- Witness for C10 at a disconnected service over an empty store. -/
theorem fallback_session_never_persisted_witness :
    alookup "u" rExDown.store.sessions = none ∧
      ((create_session cfgEx 0 "u" rExDown).2 = create_fallback_session "u" 0 ∧
        (create_fallback_session "u" 0).get "is_fallback" = some (JVal.b true) ∧
        (create_fallback_session "u" 0).get "message_count" = some (JVal.n 0) ∧
        (create_fallback_session "u" 0).get "is_first_chat" = some (JVal.b true) ∧
        (create_session cfgEx 0 "u" rExDown).1.store = rExDown.store ∧
        (∀ (b : Bool) (lc now2 : Nat),
          (get_session cfgEx now2 "u" ⟨rExDown.store, b, lc⟩).2 = none)) :=
  ⟨by decide,
    fallback_session_never_persisted cfgEx 0 "u" rExDown (by decide) (by decide)⟩

/-- Witness for C8 at `rC8`: reading user `u` at time 50 rewrites the
record with `last_active = 50` and physical expiry `50 + 100`. -/
theorem get_session_refreshes_live_witness :
    (50 : Nat) - 40 ≤ cfgEx.SESSION_TTL ∧
      ((get_session cfgEx 50 "u" rC8).2 =
          some (Dict.set [("last_active", JVal.n 40), ("is_first_chat", JVal.b true)]
            "last_active" (JVal.n 50)) ∧
        alookup "u" (get_session cfgEx 50 "u" rC8).1.store.sessions =
          some ⟨Dict.set [("last_active", JVal.n 40), ("is_first_chat", JVal.b true)]
            "last_active" (JVal.n 50), 50 + cfgEx.SESSION_TTL⟩) :=
  ⟨by decide,
    get_session_refreshes_live cfgEx 50 "u" rC8
      ⟨[("last_active", JVal.n 40), ("is_first_chat", JVal.b true)], 140⟩ 40
      (by decide) (by decide) (by decide) (by decide) (by decide) (by decide)⟩

end ChatbotSOA
